import Mathlib

/-
Verification development for the brandur-singularity static-site builder.

The repository contains two historical versions of the same build pipeline:
  - a legacy version (src/main.go) that fans jobs out over a channel of
    closures and forwards every error to a draining goroutine that panics;
  - a pool-based version (src/unnamed/part_000) that builds a list of
    pool.Task values, runs them through pool.NewPool(...).Run(), and reduces
    the recorded outcomes with runTasks.

The pool package itself (pool.NewTask, pool.NewPool, Pool.Run, Pool.HasErrors,
Task.Err) is not part of the given sources; it is modelled here from the
specification of the Task Pool (spec sections 3 and 4.2).  Everything else is
a direct shallow embedding of the Go sources.
-/

namespace Singularity

/-- Error values carried by failing jobs; Go errors are modelled by their
message strings. -/
abbrev ErrMsg := String

/-- Modelled from the spec: the outcome recorded on a Task is one of
3 states: not yet run, succeeded, or failed with an error. -/
inductive Outcome where
  | notRun
  | succeeded
  | failed (e : ErrMsg)
  deriving DecidableEq, Repr

/-- Modelled from the spec: a pool.Task pairs a Job (a zero-argument
operation, embedded as the Option ErrMsg result its operation returns:
none is success, some e is failure) with its recorded outcome.  The runs
field counts how many times the pool has executed the Job, so that the
exactly-once execution property is observable in the model. -/
structure Task where
  action : Option ErrMsg
  outcome : Outcome
  runs : Nat
  deriving DecidableEq, Repr

/-- Modelled from the spec: pool.NewTask wraps a job operation in a Task
whose outcome is not yet set and which has never been run. -/
def NewTask (job : Option ErrMsg) : Task :=
  Task.mk job Outcome.notRun 0

/-- Outcome produced by invoking a job once: none is success, some e is
failure. -/
def jobOutcome : Option ErrMsg → Outcome
  | none => Outcome.succeeded
  | some e => Outcome.failed e

/-- Modelled from the spec: executing a Task invokes its Job exactly once
and stores the resulting outcome on the Task. -/
def Task.execute (t : Task) : Task :=
  Task.mk t.action (jobOutcome t.action) (t.runs + 1)

/-- Task.Err is the error recorded on a task, as read by runTasks
(part_000 line 346): nil unless the task failed. -/
def Task.Err (t : Task) : Option ErrMsg :=
  match t.outcome with
  | Outcome.failed e => some e
  | _ => none

/-- Modelled from the spec: a pool.Pool owns the ordered list of Tasks and
a worker-count configuration value. -/
structure Pool where
  Tasks : List Task
  concurrency : Nat
  deriving DecidableEq, Repr

/-- Modelled from the spec: pool.NewPool wraps one Task per submitted Job,
in submission order. -/
def NewPool (tasks : List Task) (concurrency : Nat) : Pool :=
  Pool.mk tasks concurrency

/-- Modelled from the spec: Run blocks until every Task has been executed
exactly once and its outcome stored; Tasks are exposed afterwards in
submission order.  Jobs are independent, so the functional result does not
depend on the worker count or on the execution interleaving. -/
def Pool.Run (p : Pool) : Pool :=
  Pool.mk (p.Tasks.map Task.execute) p.concurrency

/-- Modelled from the spec: HasErrors is true iff at least one Task
recorded a failure. -/
def Pool.HasErrors (p : Pool) : Bool :=
  p.Tasks.any (fun t => (Task.Err t).isSome)

/-- Log lines emitted by the result reporter: one line per reported
failure, plus the single too-many-errors marker. -/
inductive LogLine where
  | failure (e : ErrMsg)
  | tooManyErrors
  deriving DecidableEq, Repr

/-- Reporting loop of runTasks (part_000 lines 344-354): walk the tasks in
submission order; each failed task emits a failure line and bumps
numErrors; after each task, if numErrors has reached 10, emit the
too-many-errors marker and stop. -/
def reportLoop : List Task → Nat → List LogLine
  | [], _ => []
  | t :: rest, numErrors =>
    let step : List LogLine × Nat :=
      match Task.Err t with
      | some e => ([LogLine.failure e], numErrors + 1)
      | none => ([], numErrors)
    if 10 ≤ step.2 then step.1 ++ [LogLine.tooManyErrors]
    else step.1 ++ reportLoop rest step.2

/-- runTasks (part_000 lines 340-357): run the tasks in a pool with the
configured concurrency, report failures, and return true iff no task
failed.  The second component is the list of emitted log lines. -/
def runTasks (concurrency : Nat) (tasks : List Task) : Bool × List LogLine :=
  let p := Pool.Run (NewPool tasks concurrency)
  (!p.HasErrors, reportLoop p.Tasks 0)

/-- Exit behaviour of the pool-based main after runTasks (part_000 lines
106-108): exit status 1 when runTasks returns false, 0 otherwise. -/
def mainExitCode (concurrency : Nat) (tasks : List Task) : Nat :=
  if (runTasks concurrency tasks).1 then 0 else 1

/-- Association-list lookup keyed by strings, used to model Go maps and the
filesystem namespace.  The first binding for a key wins. -/
def aGet {α : Type} : List (String × α) → String → Option α
  | [], _ => none
  | (q, v) :: rest, p => if p = q then some v else aGet rest p

/-- Removes every binding for a key from an association list. -/
def aRemove {α : Type} : List (String × α) → String → List (String × α)
  | [], _ => []
  | (q, v) :: rest, p => if q = p then aRemove rest p else (q, v) :: aRemove rest p

/-- Sets the binding for a key in an association list, replacing any
previous binding (Go map update semantics). -/
def aSet {α : Type} (m : List (String × α)) (p : String) (v : α) : List (String × α) :=
  (p, v) :: aRemove m p

/-- isHidden (part_000 lines 306-308): strings.HasPrefix(file, dot); a
one-character prefix holds exactly when the first character of the name is
a dot. -/
def isHidden (file : String) : Bool :=
  match file.data with
  | [] => false
  | c :: _ => c == '.'

/-- Names retained by the loop of tasksForArticles (part_000 lines
222-233): every listed entry except the hidden ones, in listing order. -/
def articleTaskNames (files : List String) : List String :=
  files.filter (fun n => !isHidden n)

/-- tasksForArticles (part_000 lines 215-236): one pool.Task per
non-hidden entry of the articles directory listing.  The result of
compileArticle for a given name is environment dependent and is abstracted
as the compileArticleR argument. -/
def tasksForArticles (compileArticleR : String → Option ErrMsg)
    (files : List String) : List Task :=
  (articleTaskNames files).map (fun n => NewTask (compileArticleR n))

/-- generateArticleJobs of the legacy version (main.go lines 90-108): one
job per directory entry, with no hidden-entry filtering.  Each job is
embedded as the result renderArticle would return for that entry. -/
def generateArticleJobs (renderArticleR : String → Option ErrMsg)
    (files : List String) : List (Option ErrMsg) :=
  files.map (fun n => renderArticleR n)

/-- Error-channel drain of the legacy version (main.go lines 42-49):
every job result is forwarded to a draining goroutine which panics on the
first non-nil error it receives.  The panic is modelled as Except.error;
results after the first failure are never drained because the process has
terminated. -/
def oldDrainJobs : List (Option ErrMsg) → Except ErrMsg Unit
  | [] => Except.ok ()
  | none :: rest => oldDrainJobs rest
  | some e :: _ => Except.error e

/-- Operations performed in program order by the main goroutine of the
legacy version (main.go lines 42-88), as far as the shared channels are
concerned. -/
inductive OldOp where
  | startWorkers
  | sendErr (r : Option ErrMsg)
  | submitJob (name : String)
  | waitAll
  deriving DecidableEq, Repr

/-- Error component of an enumeration result. -/
def exceptErr : Except ErrMsg (List String) → Option ErrMsg
  | Except.error e => some e
  | Except.ok _ => none

/-- List component of an enumeration result (nil on error, as in Go). -/
def exceptList : Except ErrMsg (List String) → List String
  | Except.error _ => []
  | Except.ok l => l

/-- Program-order channel operations of the legacy main (main.go lines
52-87): send the MkdirAll result to the error channel, start the workers,
submit the linkAssets job, send the article-enumeration result, send the
page-enumeration result, submit one job per enumerated article and page,
then wait on the wait group. -/
def oldMainOps (mkdirR : Option ErrMsg)
    (articlesR : Except ErrMsg (List String))
    (pagesR : Except ErrMsg (List String)) : List OldOp :=
  [OldOp.sendErr mkdirR, OldOp.startWorkers, OldOp.submitJob "linkAssets",
   OldOp.sendErr (exceptErr articlesR), OldOp.sendErr (exceptErr pagesR)]
  ++ (exceptList articlesR ++ exceptList pagesR).map OldOp.submitJob
  ++ [OldOp.waitAll]

/-- Walks an operation list tracking whether workers have been started and
whether some job has already been submitted to started workers; at the
first fatal error send it reports whether such a job exists.  A true
result means a schedule exists in which that job runs before the process
aborts. -/
def jobMayRunBeforeAbortAux : List OldOp → Bool → Bool → Bool
  | [], _, _ => false
  | OldOp.startWorkers :: rest, _, sub => jobMayRunBeforeAbortAux rest true sub
  | OldOp.submitJob _ :: rest, started, sub =>
      jobMayRunBeforeAbortAux rest started (sub || started)
  | OldOp.sendErr (some _) :: _, _, sub => sub
  | OldOp.sendErr none :: rest, started, sub => jobMayRunBeforeAbortAux rest started sub
  | OldOp.waitAll :: rest, started, sub => jobMayRunBeforeAbortAux rest started sub

/-- True when a job was already submitted to running workers before the
first fatal error send, so the job may execute despite the abort. -/
def jobMayRunBeforeAbort (ops : List OldOp) : Bool :=
  jobMayRunBeforeAbortAux ops false false

/-- Whether the operation list contains a fatal error send at all. -/
def hasFatalSend : List OldOp → Bool
  | [] => false
  | OldOp.sendErr (some _) :: _ => true
  | _ :: rest => hasFatalSend rest

/-- Terminal behaviour of the pool-based main: a fatal log before the pool
runs, or a normal completion with an exit code. -/
inductive BuildOutcome where
  | fatal (e : ErrMsg)
  | finished (exitCode : Nat)
  deriving DecidableEq, Repr

/-- Pool-based main (part_000 lines 78-108): build the fixed tasks and the
article tasks, then run them through runTasks.  A tasksForArticles error is
fatal and happens before any task is handed to a pool, so in that case no
job executes.  The second component counts the tasks that were executed. -/
def mainNewRun (concurrency : Nat) (fixedJobs : List (Option ErrMsg))
    (articlesEnum : Except ErrMsg (List String))
    (compileArticleR : String → Option ErrMsg) : BuildOutcome × Nat :=
  match articlesEnum with
  | Except.error e => (BuildOutcome.fatal e, 0)
  | Except.ok files =>
    let tasks := fixedJobs.map NewTask ++ tasksForArticles compileArticleR files
    let r := runTasks concurrency tasks
    let executed := (Pool.Run (NewPool tasks concurrency)).Tasks.countP (fun t => t.runs != 0)
    (BuildOutcome.finished (if r.1 then 0 else 1), executed)

/-- Entries a filesystem path can hold: a regular file, a directory, or a
symbolic link carrying a target path. -/
inductive FsEntry where
  | file
  | dir
  | symlink (target : String)
  deriving DecidableEq, Repr

/-- Filesystem namespace: an association of paths to entries. -/
abbrev Fs := List (String × FsEntry)

/-- Result of os.Stat: the path resolves, the path (or the end of its
symlink chain) does not exist, or another error such as a symlink loop. -/
inductive StatRes where
  | ok
  | notExist
  | err
  deriving DecidableEq, Repr

/-- Symlink-following resolution with fuel; exhausting the fuel models the
ELOOP error, which os.IsNotExist does not recognise as not-exist. -/
def statR : Nat → Fs → String → StatRes
  | 0, _, _ => StatRes.err
  | fuel + 1, fs, p =>
    match aGet fs p with
    | none => StatRes.notExist
    | some (FsEntry.symlink t) => statR fuel fs t
    | some _ => StatRes.ok

/-- os.Stat: resolve the path, following symlinks.  A chain longer than
the number of entries must contain a loop, so the fuel below suffices to
separate termination from ELOOP. -/
def stat (fs : Fs) (p : String) : StatRes :=
  statR (fs.length + 1) fs p

/-- os.Symlink: creates a symlink at dest pointing to source; fails with
EEXIST when dest already exists. -/
def osSymlink (fs : Fs) (source dest : String) : Except ErrMsg Fs :=
  match aGet fs dest with
  | some _ => Except.error "EEXIST"
  | none => Except.ok (aSet fs dest (FsEntry.symlink source))

/-- Writes ensureSymlink can perform on dest. -/
inductive FsWrite where
  | removeAll (p : String)
  | symlink (source dest : String)
  deriving DecidableEq, Repr

/-- Create path of ensureSymlink (part_000 lines 279-285, the create
label): RemoveAll on dest followed by Symlink.  Returns the call result,
the new filesystem, and the writes performed on dest. -/
def ensureSymlinkCreate (source dest : String) (fs : Fs) :
    Except ErrMsg Unit × Fs × List FsWrite :=
  match osSymlink (aRemove fs dest) source dest with
  | Except.error e => (Except.error e, aRemove fs dest, [FsWrite.removeAll dest])
  | Except.ok fs2 => (Except.ok (), fs2, [FsWrite.removeAll dest, FsWrite.symlink source dest])

/-- ensureSymlink (part_000 lines 244-286): Stat dest; on not-exist fall
through to creation; on another stat error return it; otherwise Readlink
dest (an error unless dest itself is a symlink), return nil when it
already points at source, and otherwise remove and recreate it. -/
def ensureSymlink (source dest : String) (fs : Fs) :
    Except ErrMsg Unit × Fs × List FsWrite :=
  match stat fs dest with
  | StatRes.notExist => ensureSymlinkCreate source dest fs
  | StatRes.err => (Except.error "stat", fs, [])
  | StatRes.ok =>
    match aGet fs dest with
    | some (FsEntry.symlink actual) =>
      if actual = source then (Except.ok (), fs, [])
      else ensureSymlinkCreate source dest fs
    | _ => (Except.error "readlink", fs, [])

/-- Configuration of the pool-based version (part_000 lines 22-40). -/
structure Conf where
  Concurrency : Nat
  GoogleAnalyticsID : String
  LocalFonts : Bool
  Verbose : Bool
  deriving DecidableEq, Repr

/-- Values stored in a template locals map; Go uses map of string to
interface, embedded here as a small sum of the value shapes that occur. -/
inductive LocalVal where
  | str (s : String)
  | boolean (b : Bool)
  | html (h : String)
  deriving DecidableEq, Repr

/-- Default locals built by getLocals (part_000 lines 291-297). -/
def getLocalsDefaults (conf : Conf) (release : String) (title : String) :
    List (String × LocalVal) :=
  [("GoogleAnalyticsID", LocalVal.str conf.GoogleAnalyticsID),
   ("LocalFonts", LocalVal.boolean conf.LocalFonts),
   ("Release", LocalVal.str release),
   ("Title", LocalVal.str title),
   ("ViewportWidth", LocalVal.str "device-width")]

/-- getLocals (part_000 lines 290-304): start from the defaults map and
overwrite with every binding of the locals argument. -/
def getLocals (conf : Conf) (release : String) (title : String)
    (locals : List (String × LocalVal)) : List (String × LocalVal) :=
  locals.foldl (fun acc kv => aSet acc kv.1 kv.2) (getLocalsDefaults conf release title)

/-- Executing the freshly wrapped task for a job yields the job, its
outcome, and a single run. -/
theorem execute_newTask (j : Option ErrMsg) :
    Task.execute (NewTask j) = Task.mk j (jobOutcome j) 1 := rfl

/-- Tasks exposed by a pool after Run: each submitted job paired with its
outcome, executed once, in submission order. -/
theorem run_pool_tasks (c : Nat) (jobs : List (Option ErrMsg)) :
    (Pool.Run (NewPool (jobs.map NewTask) c)).Tasks
      = jobs.map (fun j => Task.mk j (jobOutcome j) 1) := by
  show (jobs.map NewTask).map Task.execute = _
  rw [List.map_map]
  rfl

/-- The error recorded on an executed task is exactly the result its job
returned. -/
theorem err_of_executed (j : Option ErrMsg) :
    Task.Err (Task.mk j (jobOutcome j) 1) = j := by
  cases j <;> rfl

/-- Collecting the recorded errors of the executed tasks gives back the
failing job results. -/
theorem filterMap_err_executed (jobs : List (Option ErrMsg)) :
    ((jobs.map (fun j => Task.mk j (jobOutcome j) 1)).filterMap Task.Err)
      = jobs.filterMap id := by
  induction jobs with
  | nil => rfl
  | cons j rest ih =>
    cases j <;> simp [List.filterMap_cons, err_of_executed, ih]

/-- HasErrors after a run is exactly whether some job returned a
failure. -/
theorem hasErrors_run (c : Nat) (jobs : List (Option ErrMsg)) :
    (Pool.Run (NewPool (jobs.map NewTask) c)).HasErrors
      = jobs.any (fun j => j.isSome) := by
  show ((Pool.Run (NewPool (jobs.map NewTask) c)).Tasks.any fun t => (Task.Err t).isSome) = _
  rw [run_pool_tasks]
  induction jobs with
  | nil => rfl
  | cons j rest ih => cases j <;> simp [err_of_executed, ih]

/-- The number of failing jobs equals the length of the collected failure
list. -/
theorem countP_isSome_eq_length_filterMap (jobs : List (Option ErrMsg)) :
    jobs.countP (fun j => j.isSome) = (jobs.filterMap id).length := by
  induction jobs with
  | nil => rfl
  | cons j rest ih =>
    cases j <;> simp [List.countP_cons, List.filterMap_cons, ih]

/-- Closed form of the reporting loop: starting below the cap, it emits
one failure line per recorded error up to the remaining budget, followed
by the too-many-errors marker exactly when the budget is exhausted. -/
theorem reportLoop_eq (ts : List Task) : ∀ c : Nat, c < 10 →
    reportLoop ts c
      = ((ts.filterMap Task.Err).take (10 - c)).map LogLine.failure
        ++ (if 10 ≤ c + (ts.filterMap Task.Err).length then [LogLine.tooManyErrors] else []) := by
  induction ts with
  | nil =>
    intro c hc
    simp only [reportLoop, List.filterMap_nil, List.take_nil, List.map_nil, List.nil_append,
      List.length_nil, Nat.add_zero]
    rw [if_neg (by omega)]
  | cons t rest ih =>
    intro c hc
    cases hE : Task.Err t with
    | none =>
      simp only [reportLoop, hE]
      rw [if_neg (by omega)]
      simp only [List.filterMap_cons, hE, List.nil_append]
      exact ih c hc
    | some e =>
      simp only [reportLoop, hE, List.filterMap_cons]
      by_cases h9 : c + 1 < 10
      · rw [if_neg (by omega), ih (c + 1) h9]
        have h10 : 10 - c = (10 - (c + 1)) + 1 := by omega
        rw [h10, List.take_succ_cons]
        have h11 : (10 ≤ c + 1 + (rest.filterMap Task.Err).length)
            ↔ (10 ≤ c + ((rest.filterMap Task.Err).length + 1)) := by omega
        simp [h11]
      · have hc9 : c = 9 := by omega
        subst hc9
        rw [if_pos (by omega)]
        have h10 : 10 - 9 = 1 := by omega
        rw [h10, if_pos (by simp only [List.length_cons]; omega)]
        simp [List.take_succ_cons]

/-- The verdict component of runTasks is the negation of HasErrors over
the executed pool. -/
theorem runTasks_fst (c : Nat) (tasks : List Task) :
    (runTasks c tasks).1 = !(Pool.Run (NewPool tasks c)).HasErrors := rfl

/-- The log component of runTasks is the reporting loop over the executed
tasks. -/
theorem runTasks_snd (c : Nat) (tasks : List Task) :
    (runTasks c tasks).2 = reportLoop (Pool.Run (NewPool tasks c)).Tasks 0 := rfl

/-- A positive failing-job count means some job result satisfies any. -/
theorem any_isSome_of_countP_pos (jobs : List (Option ErrMsg))
    (h : 0 < jobs.countP (fun j => j.isSome)) :
    jobs.any (fun j => j.isSome) = true := by
  cases hh : jobs.any (fun j => j.isSome) with
  | true => rfl
  | false =>
    rw [List.any_eq_false] at hh
    rw [List.countP_eq_zero.mpr hh] at h
    omega

/-- A zero failing-job count means no job result satisfies any. -/
theorem any_isSome_eq_false_of_countP_zero (jobs : List (Option ErrMsg))
    (h : jobs.countP (fun j => j.isSome) = 0) :
    jobs.any (fun j => j.isSome) = false := by
  rw [List.any_eq_false]
  exact fun x hx => List.countP_eq_zero.mp h x hx

/-- C1: after the Run of the pool completes, runTasks returns true iff no
task recorded a failure; when zero jobs fail HasErrors is false and the
verdict is success, and when at least one job fails the verdict is failure
and the pool-based main exits with status 1. -/
theorem runTasks_verdict_iff (c : Nat) (jobs : List (Option ErrMsg)) :
    ((runTasks c (jobs.map NewTask)).1 = true ↔ jobs.countP (fun j => j.isSome) = 0)
    ∧ (jobs.countP (fun j => j.isSome) = 0 →
        (Pool.Run (NewPool (jobs.map NewTask) c)).HasErrors = false)
    ∧ (0 < jobs.countP (fun j => j.isSome) →
        mainExitCode c (jobs.map NewTask) = 1) := by
  refine ⟨?_, ?_, ?_⟩
  · rw [runTasks_fst, hasErrors_run, Bool.not_eq_true', List.any_eq_false]
    rw [List.countP_eq_zero]
  · intro h
    rw [hasErrors_run]
    exact any_isSome_eq_false_of_countP_zero jobs h
  · intro h
    rw [mainExitCode, runTasks_fst, hasErrors_run, any_isSome_of_countP_pos jobs h]
    rfl

/-- C1 witness: a single failing job flips the verdict and the exit
status. -/
theorem runTasks_verdict_iff_witness :
    mainExitCode 3 (([some "boom"] : List (Option ErrMsg)).map NewTask) = 1 :=
  (runTasks_verdict_iff 3 [some "boom"]).2.2 (by decide)

/-- C2: with exactly 11 failing tasks, runTasks emits the first 10
failures as individual lines followed by exactly one too-many-errors
marker, and the verdict is failure. -/
theorem report_eleven_failures (c : Nat) (jobs : List (Option ErrMsg))
    (h : jobs.countP (fun j => j.isSome) = 11) :
    (runTasks c (jobs.map NewTask)).2
      = ((jobs.filterMap id).take 10).map LogLine.failure ++ [LogLine.tooManyErrors]
    ∧ (runTasks c (jobs.map NewTask)).1 = false := by
  have hlen : (jobs.filterMap id).length = 11 := by
    rw [← countP_isSome_eq_length_filterMap]; exact h
  constructor
  · rw [runTasks_snd, run_pool_tasks, reportLoop_eq _ 0 (by omega), filterMap_err_executed,
      if_pos (by omega)]
  · rw [runTasks_fst, hasErrors_run, any_isSome_of_countP_pos jobs (by omega)]
    rfl

/-- C2 witness: eleven identical failures produce ten lines and the
marker. -/
theorem report_eleven_failures_witness :
    (runTasks 3 ((List.replicate 11 (some "e")).map NewTask)).2
      = (((List.replicate 11 ((some "e") : Option ErrMsg)).filterMap id).take 10).map
          LogLine.failure ++ [LogLine.tooManyErrors]
    ∧ (runTasks 3 ((List.replicate 11 (some "e")).map NewTask)).1 = false :=
  report_eleven_failures 3 (List.replicate 11 (some "e")) (by decide)

/-- C9: with exactly 10 failing tasks, all 10 failures are logged
individually and the too-many-errors marker is still emitted, although no
further failure remains; the verdict is failure. -/
theorem report_ten_failures_marker (c : Nat) (jobs : List (Option ErrMsg))
    (h : jobs.countP (fun j => j.isSome) = 10) :
    (runTasks c (jobs.map NewTask)).2
      = (jobs.filterMap id).map LogLine.failure ++ [LogLine.tooManyErrors]
    ∧ (runTasks c (jobs.map NewTask)).1 = false := by
  have hlen : (jobs.filterMap id).length = 10 := by
    rw [← countP_isSome_eq_length_filterMap]; exact h
  constructor
  · rw [runTasks_snd, run_pool_tasks, reportLoop_eq _ 0 (by omega), filterMap_err_executed,
      if_pos (by omega), Nat.sub_zero, ← hlen, List.take_length]
  · rw [runTasks_fst, hasErrors_run, any_isSome_of_countP_pos jobs (by omega)]
    rfl

/-- C9 witness: ten identical failures produce ten lines and the
marker. -/
theorem report_ten_failures_marker_witness :
    (runTasks 3 ((List.replicate 10 (some "e")).map NewTask)).2
      = ((List.replicate 10 ((some "e") : Option ErrMsg)).filterMap id).map
          LogLine.failure ++ [LogLine.tooManyErrors]
    ∧ (runTasks 3 ((List.replicate 10 (some "e")).map NewTask)).1 = false :=
  report_ten_failures_marker 3 (List.replicate 10 (some "e")) (by decide)

/-- C3: for every worker count of at least 1 and every non-empty job
list, after Run every task has been executed exactly once and carries a
set outcome, and no task is lost. -/
theorem pool_executes_each_job_once (w : Nat) (jobs : List (Option ErrMsg))
    (hw : 1 ≤ w) (hne : jobs ≠ []) :
    (∀ t ∈ (Pool.Run (NewPool (jobs.map NewTask) w)).Tasks,
        t.outcome ≠ Outcome.notRun ∧ t.runs = 1)
    ∧ (Pool.Run (NewPool (jobs.map NewTask) w)).Tasks.length = jobs.length := by
  constructor
  · intro t ht
    rw [run_pool_tasks] at ht
    rcases List.mem_map.mp ht with ⟨j, _, rfl⟩
    refine ⟨?_, rfl⟩
    cases j <;> simp [jobOutcome]
  · rw [run_pool_tasks, List.length_map]

/-- C3 witness: one worker and one job. -/
theorem pool_executes_each_job_once_witness :
    (∀ t ∈ (Pool.Run (NewPool (([none] : List (Option ErrMsg)).map NewTask) 1)).Tasks,
        t.outcome ≠ Outcome.notRun ∧ t.runs = 1)
    ∧ (Pool.Run (NewPool (([none] : List (Option ErrMsg)).map NewTask) 1)).Tasks.length
        = ([none] : List (Option ErrMsg)).length :=
  pool_executes_each_job_once 1 [none] (by decide) (by decide)

/-- C4 (amended): in the pool-based version a failing job is captured as
the recorded outcome of its task, every task still runs exactly once, and
the failure surfaces only through the runTasks verdict. -/
theorem pool_failure_captured_as_data (c : Nat) (jobs : List (Option ErrMsg))
    (i : Nat) (e : ErrMsg) (h : jobs.get? i = some (some e)) :
    (Pool.Run (NewPool (jobs.map NewTask) c)).Tasks.get? i
        = some (Task.mk (some e) (Outcome.failed e) 1)
    ∧ (∀ t ∈ (Pool.Run (NewPool (jobs.map NewTask) c)).Tasks, t.runs = 1)
    ∧ (runTasks c (jobs.map NewTask)).1 = false := by
  refine ⟨?_, ?_, ?_⟩
  · rw [run_pool_tasks, List.get?_map, h]
    rfl
  · intro t ht
    rw [run_pool_tasks] at ht
    rcases List.mem_map.mp ht with ⟨j, _, rfl⟩
    rfl
  · have hmem : (some e) ∈ jobs := List.get?_mem h
    rw [runTasks_fst, hasErrors_run]
    have : jobs.any (fun j => j.isSome) = true := by
      rw [List.any_eq_true]
      exact ⟨some e, hmem, rfl⟩
    rw [this]
    rfl

/-- C4 witness: a single failing job among two. -/
theorem pool_failure_captured_as_data_witness :
    (Pool.Run (NewPool (([none, some "boom"] : List (Option ErrMsg)).map NewTask) 2)).Tasks.get? 1
        = some (Task.mk (some "boom") (Outcome.failed "boom") 1)
    ∧ (∀ t ∈ (Pool.Run (NewPool (([none, some "boom"] : List (Option ErrMsg)).map NewTask) 2)).Tasks,
        t.runs = 1)
    ∧ (runTasks 2 (([none, some "boom"] : List (Option ErrMsg)).map NewTask)).1 = false :=
  pool_failure_captured_as_data 2 [none, some "boom"] 1 "boom" (by decide)

/-- C4 counterexample: in the legacy version (main.go) a failing job is
forwarded to the error-channel drain, which panics: the failure propagates
as a process-level fault and the remaining results are never drained. -/
theorem legacy_error_channel_fault :
    oldDrainJobs [some "boom", none] = Except.error "boom" := rfl

/-- C5 (amended): in the pool-based version an article-enumeration error
is fatal and no job executes; in the legacy version the asset-link job is
already submitted to running workers before enumeration, so a job may run
despite the abort. -/
theorem enumeration_failure_fatal (c : Nat) (fixedJobs : List (Option ErrMsg))
    (compileArticleR : String → Option ErrMsg) (e : ErrMsg)
    (pagesR : Except ErrMsg (List String)) :
    mainNewRun c fixedJobs (Except.error e) compileArticleR = (BuildOutcome.fatal e, 0)
    ∧ jobMayRunBeforeAbort (oldMainOps none (Except.error e) pagesR) = true :=
  ⟨rfl, rfl⟩

/-- C5 counterexample: in the legacy main, with a failing article
enumeration, a fatal error send occurs, yet the linkAssets job was already
submitted to started workers beforehand, so a schedule exists in which it
runs. -/
theorem legacy_job_submitted_before_abort :
    hasFatalSend (oldMainOps none (Except.error "ENOENT") (Except.ok [])) = true
    ∧ jobMayRunBeforeAbort (oldMainOps none (Except.error "ENOENT") (Except.ok [])) = true :=
  ⟨rfl, rfl⟩

/-- C6 (amended): in the pool-based version a name gets an article task
iff it is listed and not hidden; the legacy generators build one job per
entry with no hidden-entry filtering. -/
theorem articleTasks_exclude_hidden (files : List String) (name : String) :
    (name ∈ articleTaskNames files ↔ name ∈ files ∧ isHidden name = false)
    ∧ (∀ (renderArticleR : String → Option ErrMsg) (files2 : List String),
        (generateArticleJobs renderArticleR files2).length = files2.length) := by
  constructor
  · rw [articleTaskNames, List.mem_filter]
    simp [Bool.not_eq_true']
  · intro r files2
    exact List.length_map files2 _

/-- C6 witness: a concrete listing with one hidden and one plain entry. -/
theorem articleTasks_exclude_hidden_witness :
    ("post" ∈ articleTaskNames [".git", "post"]
      ↔ "post" ∈ [".git", "post"] ∧ isHidden "post" = false)
    ∧ (∀ (renderArticleR : String → Option ErrMsg) (files2 : List String),
        (generateArticleJobs renderArticleR files2).length = files2.length) :=
  articleTasks_exclude_hidden [".git", "post"] "post"

/-- C6 counterexample: the legacy generateArticleJobs keeps a hidden entry
in the generated job list. -/
theorem legacy_jobs_include_hidden :
    isHidden ".hidden" = true
    ∧ generateArticleJobs (fun _ => none) [".hidden"] = [none] := by
  constructor
  · decide
  · rfl

/-- Looking up a key just removed yields nothing. -/
theorem aGet_aRemove_self {α : Type} (m : List (String × α)) (p : String) :
    aGet (aRemove m p) p = none := by
  induction m with
  | nil => rfl
  | cons kv rest ih =>
    obtain ⟨q, v⟩ := kv
    by_cases h : q = p
    · simp [aRemove, h, ih]
    · have h' : ¬p = q := fun hh => h hh.symm
      simp [aRemove, h, aGet, h', ih]

/-- Removing one key leaves lookups of other keys unchanged. -/
theorem aGet_aRemove_ne {α : Type} (m : List (String × α)) (p q : String)
    (hne : q ≠ p) :
    aGet (aRemove m p) q = aGet m q := by
  induction m with
  | nil => rfl
  | cons kv rest ih =>
    obtain ⟨k0, v⟩ := kv
    by_cases h : k0 = p
    · have h' : ¬q = k0 := fun hh => hne (hh.trans h)
      simp [aRemove, h, aGet, h', hne, ih]
    · by_cases hq : q = k0
      · simp [aRemove, h, aGet, hq]
      · simp [aRemove, h, aGet, hq, ih]

/-- Removing a key twice is the same as removing it once. -/
theorem aRemove_aRemove {α : Type} (m : List (String × α)) (p : String) :
    aRemove (aRemove m p) p = aRemove m p := by
  induction m with
  | nil => rfl
  | cons kv rest ih =>
    obtain ⟨q, v⟩ := kv
    by_cases h : q = p
    · simp [aRemove, h, ih]
    · simp [aRemove, h, ih]

/-- Looking up a key just set yields the new value. -/
theorem aGet_aSet_self {α : Type} (m : List (String × α)) (p : String) (v : α) :
    aGet (aSet m p v) p = some v := by
  simp [aSet, aGet]

/-- Setting one key leaves lookups of other keys unchanged. -/
theorem aGet_aSet_ne {α : Type} (m : List (String × α)) (p q : String) (v : α)
    (hne : q ≠ p) :
    aGet (aSet m p v) q = aGet m q := by
  have h' : ¬q = p := hne
  simp only [aSet, aGet, if_neg h']
  exact aGet_aRemove_ne m p q hne

/-- A key that appears in no binding looks up to nothing. -/
theorem aGet_eq_none_of_not_mem {α : Type} (m : List (String × α)) (k : String)
    (h : k ∉ m.map Prod.fst) :
    aGet m k = none := by
  induction m with
  | nil => rfl
  | cons kv rest ih =>
    obtain ⟨q, v⟩ := kv
    simp only [List.map_cons, List.mem_cons, not_or] at h
    simp [aGet, h.1, ih h.2]

/-- Looking up a key after folding a map over aSet: bindings of the folded
map win, and keys it does not bind fall through to the initial map. -/
theorem aGet_foldl_aSet {α : Type} (l : List (String × α)) (k : String) :
    ∀ init : List (String × α), (l.map Prod.fst).Nodup →
      aGet (l.foldl (fun acc kv => aSet acc kv.1 kv.2) init) k
        = match aGet l k with
          | some v => some v
          | none => aGet init k := by
  induction l with
  | nil => intro init _; rfl
  | cons kv rest ih =>
    intro init hnd
    obtain ⟨k0, v0⟩ := kv
    simp only [List.map_cons, List.nodup_cons] at hnd
    simp only [List.foldl_cons]
    rw [ih (aSet init k0 v0) hnd.2]
    by_cases hk : k = k0
    · subst hk
      rw [aGet_eq_none_of_not_mem rest k hnd.1]
      simp [aGet, aGet_aSet_self]
    · have h' : ¬k = k0 := hk
      simp only [aGet, if_neg h']
      cases aGet rest k with
      | some v => rfl
      | none => exact aGet_aRemove_ne init k0 k hk

/-- C10: getLocals keeps every caller-supplied binding (so a caller Title
overrides the default), and for keys the caller does not bind it falls
back to the defaults map, whose Title default is the title argument. -/
theorem getLocals_override_and_defaults (conf : Conf) (release title : String)
    (locals : List (String × LocalVal))
    (hnd : (locals.map Prod.fst).Nodup) :
    (∀ k v, aGet locals k = some v →
        aGet (getLocals conf release title locals) k = some v)
    ∧ (∀ k, aGet locals k = none →
        aGet (getLocals conf release title locals) k
          = aGet (getLocalsDefaults conf release title) k)
    ∧ aGet (getLocalsDefaults conf release title) "Title" = some (LocalVal.str title) := by
  refine ⟨?_, ?_, ?_⟩
  · intro k v hk
    rw [getLocals, aGet_foldl_aSet locals k _ hnd, hk]
  · intro k hk
    rw [getLocals, aGet_foldl_aSet locals k _ hnd, hk]
  · rfl

/-- C10 witness: a caller map overriding Title and adding Foo; Release
falls back to the default. -/
theorem getLocals_override_and_defaults_witness :
    aGet (getLocals (Conf.mk 10 "GA" false false) "003" "T"
        [("Title", LocalVal.str "T2"), ("Foo", LocalVal.str "Bar")]) "Title"
      = some (LocalVal.str "T2")
    ∧ aGet (getLocals (Conf.mk 10 "GA" false false) "003" "T"
        [("Title", LocalVal.str "T2"), ("Foo", LocalVal.str "Bar")]) "Release"
      = some (LocalVal.str "003") := by
  have h := getLocals_override_and_defaults (Conf.mk 10 "GA" false false) "003" "T"
    [("Title", LocalVal.str "T2"), ("Foo", LocalVal.str "Bar")] (by decide)
  exact ⟨h.1 "Title" (LocalVal.str "T2") (by decide),
    (h.2.1 "Release" (by decide)).trans (by decide)⟩

/-- Unfolds one resolution step of statR. -/
theorem statR_succ (n : Nat) (fs : Fs) (p : String) :
    statR (n + 1) fs p
      = match aGet fs p with
        | none => StatRes.notExist
        | some (FsEntry.symlink t) => statR n fs t
        | some _ => StatRes.ok := rfl

/-- Stat of an absent path reports not-exist. -/
theorem stat_of_none (fs : Fs) (p : String) (h : aGet fs p = none) :
    stat fs p = StatRes.notExist := by
  show statR (fs.length + 1) fs p = _
  rw [statR_succ, h]

/-- Exact result of the create path: RemoveAll on dest, then a fresh
symlink at dest. -/
theorem ensureSymlinkCreate_eq (source dest : String) (fs : Fs) :
    ensureSymlinkCreate source dest fs
      = (Except.ok (), (dest, FsEntry.symlink source) :: aRemove fs dest,
         [FsWrite.removeAll dest, FsWrite.symlink source dest]) := by
  have h1 : osSymlink (aRemove fs dest) source dest
      = Except.ok (aSet (aRemove fs dest) dest (FsEntry.symlink source)) := by
    unfold osSymlink
    rw [aGet_aRemove_self]
  unfold ensureSymlinkCreate
  rw [h1]
  simp [aSet, aRemove_aRemove]

/-- When dest resolves and already links to source, the call verifies the
link and performs no writes. -/
theorem ensureSymlink_ok_same (source dest : String) (fs : Fs)
    (hs : stat fs dest = StatRes.ok)
    (hg : aGet fs dest = some (FsEntry.symlink source)) :
    ensureSymlink source dest fs = (Except.ok (), fs, []) := by
  unfold ensureSymlink
  rw [hs, hg]
  simp

/-- When dest does not resolve, the call takes the create path. -/
theorem ensureSymlink_notExist (source dest : String) (fs : Fs)
    (hs : stat fs dest = StatRes.notExist) :
    ensureSymlink source dest fs = ensureSymlinkCreate source dest fs := by
  unfold ensureSymlink
  rw [hs]

/-- When dest resolves but links to a different path, the call takes the
create path. -/
theorem ensureSymlink_ok_other (source dest t : String) (fs : Fs)
    (hs : stat fs dest = StatRes.ok)
    (hg : aGet fs dest = some (FsEntry.symlink t))
    (ht : t ≠ source) :
    ensureSymlink source dest fs = ensureSymlinkCreate source dest fs := by
  unfold ensureSymlink
  rw [hs, hg]
  simp [ht]

/-- When stat reports a genuine error, the call returns it and changes
nothing. -/
theorem ensureSymlink_err (source dest : String) (fs : Fs)
    (hs : stat fs dest = StatRes.err) :
    ensureSymlink source dest fs = (Except.error "stat", fs, []) := by
  unfold ensureSymlink
  rw [hs]

/-- After creation, dest holds the new symlink. -/
theorem aGet_created (source dest : String) (fs : Fs) :
    aGet ((dest, FsEntry.symlink source) :: aRemove fs dest) dest
      = some (FsEntry.symlink source) := by
  simp [aGet]

/-- Creating over a created state yields the same state. -/
theorem create_over_created (source dest : String) (fs : Fs) :
    ensureSymlinkCreate source dest ((dest, FsEntry.symlink source) :: aRemove fs dest)
      = (Except.ok (), (dest, FsEntry.symlink source) :: aRemove fs dest,
         [FsWrite.removeAll dest, FsWrite.symlink source dest]) := by
  rw [ensureSymlinkCreate_eq]
  simp [aRemove, aRemove_aRemove]

/-- A second call on a created state leaves the state unchanged whatever
stat finds there. -/
theorem ensureSymlink_second_state (source dest : String) (fs : Fs) :
    (ensureSymlink source dest ((dest, FsEntry.symlink source) :: aRemove fs dest)).2.1
      = (dest, FsEntry.symlink source) :: aRemove fs dest := by
  cases hs : stat ((dest, FsEntry.symlink source) :: aRemove fs dest) dest with
  | ok => rw [ensureSymlink_ok_same source dest _ hs (aGet_created source dest fs)]
  | notExist => rw [ensureSymlink_notExist source dest _ hs, create_over_created]
  | err => rw [ensureSymlink_err source dest _ hs]

/-- When dest already links to a source that is a plain file or directory,
the call returns nil and performs no writes. -/
theorem ensureSymlink_no_writes (source dest : String) (g : Fs)
    (hg : aGet g dest = some (FsEntry.symlink source))
    (hsrc : aGet g source = some FsEntry.file ∨ aGet g source = some FsEntry.dir) :
    ensureSymlink source dest g = (Except.ok (), g, []) := by
  have hok : stat g dest = StatRes.ok := by
    cases g with
    | nil => simp [aGet] at hg
    | cons hd tl =>
      show statR ((hd :: tl).length + 1) (hd :: tl) dest = _
      rw [statR_succ, hg, List.length_cons]
      show statR (tl.length + 1) (hd :: tl) source = StatRes.ok
      rcases hsrc with h | h <;> rw [statR_succ, h]
  exact ensureSymlink_ok_same source dest g hok hg

/-- Conclusions about a created state: dest links to source, a second call
does not change the filesystem, and when source is a plain file or
directory the second call performs no writes. -/
theorem created_state_conclusions (source dest : String) (fs : Fs)
    (hdest : aGet fs dest = none ∨ ∃ t, aGet fs dest = some (FsEntry.symlink t)) :
    aGet ((dest, FsEntry.symlink source) :: aRemove fs dest) dest
        = some (FsEntry.symlink source)
    ∧ (ensureSymlink source dest ((dest, FsEntry.symlink source) :: aRemove fs dest)).2.1
        = (dest, FsEntry.symlink source) :: aRemove fs dest
    ∧ ((aGet fs source = some FsEntry.file ∨ aGet fs source = some FsEntry.dir) →
        (ensureSymlink source dest ((dest, FsEntry.symlink source) :: aRemove fs dest)).2.2
          = []) := by
  refine ⟨aGet_created source dest fs, ensureSymlink_second_state source dest fs, ?_⟩
  intro hsrc
  have hnds : source ≠ dest := by
    intro hq
    rw [hq] at hsrc
    rcases hsrc with h | h <;> rcases hdest with h2 | ⟨t2, h2⟩ <;> rw [h] at h2 <;> simp at h2
  have hsF1 : aGet ((dest, FsEntry.symlink source) :: aRemove fs dest) source
      = aGet fs source := by
    simp only [aGet, if_neg hnds]
    exact aGet_aRemove_ne fs dest source hnds
  rw [ensureSymlink_no_writes source dest _ (aGet_created source dest fs)
    (by rw [hsF1]; exact hsrc)]

/-- C7 (amended): when dest is initially absent or a symlink and stat on
dest does not error, two consecutive ensureSymlink calls leave dest as a
symlink pointing at source and the second call leaves the filesystem
exactly as the first did; when source is a plain file or directory the
second call performs no writes on dest, whereas a missing source makes the
second call remove and recreate the link without changing the state. -/
theorem ensureSymlink_idempotent (source dest : String) (fs : Fs)
    (hdest : aGet fs dest = none ∨ ∃ t, aGet fs dest = some (FsEntry.symlink t))
    (hstat : stat fs dest ≠ StatRes.err) :
    aGet (ensureSymlink source dest fs).2.1 dest = some (FsEntry.symlink source)
    ∧ (ensureSymlink source dest (ensureSymlink source dest fs).2.1).2.1
        = (ensureSymlink source dest fs).2.1
    ∧ ((aGet fs source = some FsEntry.file ∨ aGet fs source = some FsEntry.dir) →
        (ensureSymlink source dest (ensureSymlink source dest fs).2.1).2.2 = []) := by
  cases hs : stat fs dest with
  | err => exact absurd hs hstat
  | notExist =>
    have h1 : ensureSymlink source dest fs
        = (Except.ok (), (dest, FsEntry.symlink source) :: aRemove fs dest,
           [FsWrite.removeAll dest, FsWrite.symlink source dest]) := by
      rw [ensureSymlink_notExist source dest fs hs, ensureSymlinkCreate_eq]
    have h2 := created_state_conclusions source dest fs hdest
    rw [h1]
    exact h2
  | ok =>
    rcases hdest with hnone | ⟨t, hlink⟩
    · rw [stat_of_none fs dest hnone] at hs
      cases hs
    by_cases hts : t = source
    · rw [hts] at hlink
      have h1 : ensureSymlink source dest fs = (Except.ok (), fs, []) :=
        ensureSymlink_ok_same source dest fs hs hlink
      refine ⟨?_, ?_, ?_⟩
      · rw [h1]
        exact hlink
      · rw [h1, h1]
      · intro hsrc
        rw [h1, h1]
    · have h1 : ensureSymlink source dest fs
          = (Except.ok (), (dest, FsEntry.symlink source) :: aRemove fs dest,
             [FsWrite.removeAll dest, FsWrite.symlink source dest]) := by
        rw [ensureSymlink_ok_other source dest t fs hs hlink hts, ensureSymlinkCreate_eq]
      have h2 := created_state_conclusions source dest fs (Or.inr ⟨t, hlink⟩)
      rw [h1]
      exact h2

/-- C7 witness: source is a plain file, dest absent; the first call
creates the link and the second call verifies it with no writes. -/
theorem ensureSymlink_idempotent_witness :
    aGet (ensureSymlink "s" "d" [("s", FsEntry.file)]).2.1 "d"
        = some (FsEntry.symlink "s")
    ∧ (ensureSymlink "s" "d" (ensureSymlink "s" "d" [("s", FsEntry.file)]).2.1).2.1
        = (ensureSymlink "s" "d" [("s", FsEntry.file)]).2.1
    ∧ (ensureSymlink "s" "d" (ensureSymlink "s" "d" [("s", FsEntry.file)]).2.1).2.2 = [] := by
  have h := ensureSymlink_idempotent "s" "d" [("s", FsEntry.file)]
    (Or.inl (by decide)) (by decide)
  exact ⟨h.1, h.2.1, h.2.2 (Or.inl (by decide))⟩

/-- C7 counterexample: with a missing source and an initially absent dest,
the second call removes and recreates the link, so it does modify dest
(the filesystem state is nevertheless unchanged). -/
theorem ensureSymlink_second_call_writes :
    (ensureSymlink "s" "d" ((ensureSymlink "s" "d" ([] : Fs)).2.1)).2.2
        = [FsWrite.removeAll "d", FsWrite.symlink "s" "d"]
    ∧ (ensureSymlink "s" "d" ((ensureSymlink "s" "d" ([] : Fs)).2.1)).2.1
        = (ensureSymlink "s" "d" ([] : Fs)).2.1 := by
  refine ⟨by decide, by decide⟩

/-- C8 (amended): when dest is a symlink to a path other than source and
stat on dest does not error, ensureSymlink removes the existing link,
creates a symlink at dest pointing at source, and returns nil. -/
theorem ensureSymlink_repoints (source dest t : String) (fs : Fs)
    (hdest : aGet fs dest = some (FsEntry.symlink t))
    (ht : t ≠ source)
    (hstat : stat fs dest ≠ StatRes.err) :
    (ensureSymlink source dest fs).2.2
        = [FsWrite.removeAll dest, FsWrite.symlink source dest]
    ∧ aGet (ensureSymlink source dest fs).2.1 dest = some (FsEntry.symlink source)
    ∧ (ensureSymlink source dest fs).1 = Except.ok () := by
  have h1 : ensureSymlink source dest fs
      = (Except.ok (), (dest, FsEntry.symlink source) :: aRemove fs dest,
         [FsWrite.removeAll dest, FsWrite.symlink source dest]) := by
    cases hs : stat fs dest with
    | err => exact absurd hs hstat
    | notExist => rw [ensureSymlink_notExist source dest fs hs, ensureSymlinkCreate_eq]
    | ok => rw [ensureSymlink_ok_other source dest t fs hs hdest ht, ensureSymlinkCreate_eq]
  rw [h1]
  exact ⟨rfl, aGet_created source dest fs, rfl⟩

/-- C8 witness: dest links to a different, dangling path; it is removed
and re-pointed at source. -/
theorem ensureSymlink_repoints_witness :
    (ensureSymlink "s" "d" [("d", FsEntry.symlink "x")]).2.2
        = [FsWrite.removeAll "d", FsWrite.symlink "s" "d"]
    ∧ aGet (ensureSymlink "s" "d" [("d", FsEntry.symlink "x")]).2.1 "d"
        = some (FsEntry.symlink "s")
    ∧ (ensureSymlink "s" "d" [("d", FsEntry.symlink "x")]).1 = Except.ok () :=
  ensureSymlink_repoints "s" "d" "x" [("d", FsEntry.symlink "x")]
    (by decide) (by decide) (by decide)

/-- C8 counterexample: dest links to a path whose resolution loops; Stat
returns an error that os.IsNotExist does not recognise, so ensureSymlink
returns the error and dest keeps pointing elsewhere. -/
theorem ensureSymlink_loop_no_repoint :
    aGet ([("d", FsEntry.symlink "t"), ("t", FsEntry.symlink "t")] : Fs) "d"
        = some (FsEntry.symlink "t")
    ∧ ("t" : String) ≠ "s"
    ∧ ensureSymlink "s" "d" [("d", FsEntry.symlink "t"), ("t", FsEntry.symlink "t")]
        = (Except.error "stat",
           [("d", FsEntry.symlink "t"), ("t", FsEntry.symlink "t")], []) := by
  refine ⟨by decide, by decide, by rfl⟩

end Singularity
